import Mathlib

/-
Verification of op-aws-credential-helper (Go) against its design
specification.  The Go source (src/main.go, src/op.go) is shallowly
embedded below: pure logic is translated to Lean functions; external
effects (filesystem, subprocess, terminal, network) are threaded as
explicit environment values describing the outcome of each effectful
call.  Machine integers of the Go code stay in the safe range here
(timestamps, byte values, 32-bit SHA-1 words with explicit % 2^32),
so Nat/Int model them directly.
-/

namespace OpAws

/-! ## JSON values

Go's encoding/json is modelled at the level of parsed JSON documents.
A file's raw bytes are abstracted as `Option Json`: `none` when the
bytes are not valid JSON, `some j` when they parse to the document `j`.
Timestamps (Go `time.Time`) are modelled as `Int` and their JSON form
as `Json.num`; the RFC3339 string Go actually prints is an injective
image of the timestamp, so this abstraction preserves every property
proved here. -/

inductive Json where
  | null : Json
  | bool (b : Bool) : Json
  | num (n : Int) : Json
  | str (s : String) : Json
  | arr (elems : List Json) : Json
  | obj (fields : List (String × Json)) : Json

/-! ## Errors

Go `error` values are modelled as an inductive carrying the data each
construction site of the source attaches.  `GoError.message` mirrors
the format strings of the source (src/main.go:200, src/main.go:223). -/

inductive GoError where
  /-- os.ReadFile / os.Open failure: missing or unreadable file. -/
  | notExist : GoError
  /-- encoding/json unmarshal failure (syntax or type error), with the library message. -/
  | jsonError (msg : String) : GoError
  /-- exec.ExitError from the op subprocess, wrapped at src/main.go:200 with the captured stderr. -/
  | opExitError (errText : String) (stderr : String) : GoError
  /-- any other failure to run the op subprocess (src/main.go:202). -/
  | opExecError (msg : String) : GoError
  /-- fmt.Errorf("missing credentials in op output") at src/main.go:223. -/
  | missingCredentials : GoError
  /-- config.LoadSharedConfigProfile failure. -/
  | configError (msg : String) : GoError
  /-- failure to open or read /dev/tty in the OTP prompt. -/
  | otpError (msg : String) : GoError
  /-- sts GetSessionToken failure. -/
  | stsError (msg : String) : GoError
  /-- os.UserHomeDir failure in cachePath. -/
  | homeDirError (msg : String) : GoError
  /-- os.MkdirAll failure in writeCache. -/
  | mkdirError (msg : String) : GoError
  /-- os.WriteFile failure in writeCache. -/
  | writeFileError (msg : String) : GoError
deriving DecidableEq

def GoError.message : GoError → String
  | .notExist => "no such file or directory"
  | .jsonError m => m
  | .opExitError e st => "failed to get op item: " ++ e ++ "\n" ++ st
  | .opExecError m => m
  | .missingCredentials => "missing credentials in op output"
  | .configError m => m
  | .otpError m => m
  | .stsError m => m
  | .homeDirError m => m
  | .mkdirError m => m
  | .writeFileError m => m

/-! ## processcreds.CredentialProcessResponse

The struct marshalled to the cache file and to stdout
(src/main.go:92-98).  `Expiration` is a `*time.Time` in Go; the nil
pointer is `none`.  Marshalling follows encoding/json for this struct:
every field is emitted under its JSON tag, a nil `Expiration` as
`null`; unmarshalling fills absent fields (and `null` values) with the
Go zero value — in particular a document lacking `Expiration` decodes
without error to a response whose `Expiration` is `none`. -/

structure CredentialProcessResponse where
  Version : Int
  AccessKeyID : String
  SecretAccessKey : String
  SessionToken : String
  Expiration : Option Int
deriving DecidableEq

def marshalResponse (r : CredentialProcessResponse) : Json :=
  Json.obj
    [("Version", Json.num r.Version),
     ("AccessKeyId", Json.str r.AccessKeyID),
     ("SecretAccessKey", Json.str r.SecretAccessKey),
     ("SessionToken", Json.str r.SessionToken),
     ("Expiration", match r.Expiration with
       | none => Json.null
       | some t => Json.num t)]

def decodeIntField (fields : List (String × Json)) (key : String) : Except GoError Int :=
  match fields.lookup key with
  | none => .ok 0
  | some Json.null => .ok 0
  | some (Json.num n) => .ok n
  | some _ => .error (.jsonError ("json: cannot unmarshal into field " ++ key))

def decodeStringField (fields : List (String × Json)) (key : String) : Except GoError String :=
  match fields.lookup key with
  | none => .ok ""
  | some Json.null => .ok ""
  | some (Json.str s) => .ok s
  | some _ => .error (.jsonError ("json: cannot unmarshal into field " ++ key))

def decodeTimeField (fields : List (String × Json)) (key : String) : Except GoError (Option Int) :=
  match fields.lookup key with
  | none => .ok none
  | some Json.null => .ok none
  | some (Json.num t) => .ok (some t)
  | some _ => .error (.jsonError ("json: cannot unmarshal into field " ++ key))

def unmarshalResponse (j : Json) : Except GoError CredentialProcessResponse :=
  match j with
  | Json.null => .ok ⟨0, "", "", "", none⟩
  | Json.obj fields => do
      let v ← decodeIntField fields "Version"
      let ak ← decodeStringField fields "AccessKeyId"
      let sk ← decodeStringField fields "SecretAccessKey"
      let st ← decodeStringField fields "SessionToken"
      let ex ← decodeTimeField fields "Expiration"
      .ok ⟨v, ak, sk, st, ex⟩
  | _ => .error (.jsonError "json: cannot unmarshal into CredentialProcessResponse")

/-! ## UTF-8 and SHA-1

`cachePath` hashes the UTF-8 bytes of the profile name with crypto/sha1
and prints the 20-byte digest as 40 lowercase hex characters
(src/main.go:115-116).  Bytes are `Nat < 256`, SHA-1 words `Nat < 2^32`
kept in range by explicit reduction. -/

def utf8Bytes (c : Char) : List Nat :=
  let n := c.toNat
  if n < 0x80 then [n]
  else if n < 0x800 then [0xC0 + n / 0x40, 0x80 + n % 0x40]
  else if n < 0x10000 then [0xE0 + n / 0x1000, 0x80 + n / 0x40 % 0x40, 0x80 + n % 0x40]
  else [0xF0 + n / 0x40000, 0x80 + n / 0x1000 % 0x40, 0x80 + n / 0x40 % 0x40, 0x80 + n % 0x40]

def strBytes (s : String) : List Nat :=
  (s.data.map utf8Bytes).flatten

def w32 (n : Nat) : Nat := n % 4294967296

def rotl32 (k n : Nat) : Nat := w32 ((n <<< k) ||| (n >>> (32 - k)))

def not32 (n : Nat) : Nat := n ^^^ 0xFFFFFFFF

def sha1F (i b c d : Nat) : Nat :=
  if i < 20 then (b &&& c) ||| (not32 b &&& d)
  else if i < 40 then b ^^^ c ^^^ d
  else if i < 60 then (b &&& c) ||| (b &&& d) ||| (c &&& d)
  else b ^^^ c ^^^ d

def sha1K (i : Nat) : Nat :=
  if i < 20 then 0x5A827999
  else if i < 40 then 0x6ED9EBA1
  else if i < 60 then 0x8F1BBCDC
  else 0xCA62C1D6

/-- Big-endian byte decomposition: `k` bytes of `n`, most significant first. -/
def beBytes (k n : Nat) : List Nat :=
  (List.range k).map (fun i => n / 2 ^ (8 * (k - 1 - i)) % 256)

/-- SHA-1 padding: append 0x80, zero bytes to 56 mod 64, then the 64-bit big-endian bit length. -/
def sha1Pad (msg : List Nat) : List Nat :=
  msg ++ [0x80] ++ List.replicate ((119 - msg.length % 64) % 64) 0 ++ beBytes 8 (msg.length * 8)

/-- Group bytes into big-endian 32-bit words, four bytes per word. -/
def toWords : List Nat → List Nat
  | b0 :: b1 :: b2 :: b3 :: rest => (((b0 * 256 + b1) * 256 + b2) * 256 + b3) :: toWords rest
  | _ => []

/-- Message-schedule extension, building the word list in reverse (newest first). -/
def sha1ExtendRev (rev : List Nat) : Nat → List Nat
  | 0 => rev
  | n + 1 =>
      sha1ExtendRev
        (rotl32 1 (rev.getD 2 0 ^^^ rev.getD 7 0 ^^^ rev.getD 13 0 ^^^ rev.getD 15 0) :: rev) n

def sha1Step (st : Nat × Nat × Nat × Nat × Nat) (iw : Nat × Nat) : Nat × Nat × Nat × Nat × Nat :=
  match st, iw with
  | (a, b, c, d, e), (i, wi) =>
      (w32 (rotl32 5 a + sha1F i b c d + e + sha1K i + wi), a, rotl32 30 b, c, d)

/-- One SHA-1 block: extend the 16 chunk words to 80, run 80 rounds, add into the state. -/
def sha1Compress (hs : List Nat) (chunkWords : List Nat) : List Nat :=
  let ws := (sha1ExtendRev chunkWords.reverse 64).reverse
  let st := ws.enum.foldl sha1Step (hs.getD 0 0, hs.getD 1 0, hs.getD 2 0, hs.getD 3 0, hs.getD 4 0)
  [w32 (hs.getD 0 0 + st.1), w32 (hs.getD 1 0 + st.2.1), w32 (hs.getD 2 0 + st.2.2.1),
   w32 (hs.getD 3 0 + st.2.2.2.1), w32 (hs.getD 4 0 + st.2.2.2.2)]

/-- Split into 64-byte blocks; the fuel argument (the list length at the call site) keeps the recursion structural. -/
def splitBlocks : Nat → List Nat → List (List Nat)
  | 0, _ => []
  | _, [] => []
  | fuel + 1, bytes => bytes.take 64 :: splitBlocks fuel (bytes.drop 64)

/-- crypto/sha1 `Sum`: the 20-byte digest of a byte sequence. -/
def sha1 (msg : List Nat) : List Nat :=
  let padded := sha1Pad msg
  ((splitBlocks padded.length padded).foldl (fun hs blk => sha1Compress hs (toWords blk))
      [0x67452301, 0xEFCDAB89, 0x98BADCFE, 0x10325476, 0xC3D2E1F0]).flatMap (beBytes 4)

/-! ## Hex formatting (fmt.Sprintf "%x" on a byte array) -/

def hexChar (n : Nat) : Char :=
  if n < 10 then Char.ofNat (48 + n) else Char.ofNat (87 + n)

def hexByte (b : Nat) : List Char := [hexChar (b / 16), hexChar (b % 16)]

def hexDigest (bytes : List Nat) : String := ⟨bytes.flatMap hexByte⟩

/-! ## Cache store (src/main.go:106-149)

The filesystem and environment enter as explicit values: `xdgCacheHome`
is the result of `os.Getenv("XDG_CACHE_HOME")` (empty when unset),
`userHomeDir` the outcome of `os.UserHomeDir()`, and `file` maps a path
to its readable content (`none`: missing or unreadable; `some none`:
bytes that are not valid JSON; `some (some j)`: bytes parsing to `j`).
`filepath.Join` is modelled as separator concatenation, which agrees
with Join on the clean components produced here. -/

structure CacheEnv where
  xdgCacheHome : String
  userHomeDir : Except GoError String
  file : String → Option (Option Json)

structure WriteEnv where
  mkdirAll : Except GoError Unit
  writeFile : Except GoError Unit

def joinPath (a b : String) : String := a ++ "/" ++ b

/-- Base cache directory resolution of src/main.go:107-114. -/
def cacheBase (env : CacheEnv) : Except GoError String :=
  if env.xdgCacheHome = "" then
    match env.userHomeDir with
    | .error e => .error e
    | .ok home => .ok (joinPath home ".cache")
  else .ok env.xdgCacheHome

/-- cachePath of src/main.go:106-118. -/
def cachePath (env : CacheEnv) (profile : String) : Except GoError String :=
  match cacheBase env with
  | .error e => .error e
  | .ok cacheDir =>
      .ok (joinPath (joinPath cacheDir "op-aws-credential-helper")
            (hexDigest (sha1 (strBytes profile)) ++ ".json"))

/-- readCache of src/main.go:120-134. -/
def readCache (env : CacheEnv) (profile : String) : Except GoError CredentialProcessResponse :=
  match cachePath env profile with
  | .error e => .error e
  | .ok path =>
      match env.file path with
      | none => .error .notExist
      | some none => .error (.jsonError "invalid character in cache file")
      | some (some j) => unmarshalResponse j

/-- writeCache of src/main.go:136-149; on success it returns the updated file map. -/
def writeCache (env : CacheEnv) (wenv : WriteEnv) (profile : String)
    (resp : CredentialProcessResponse) : Except GoError (String → Option (Option Json)) :=
  match cachePath env profile with
  | .error e => .error e
  | .ok path =>
      match wenv.mkdirAll with
      | .error e => .error e
      | .ok _ =>
          match wenv.writeFile with
          | .error e => .error e
          | .ok _ => .ok (fun q => if q = path then some (some (marshalResponse resp)) else env.file q)

/-! ## Secret retrieval (src/main.go:180-226)

The op subprocess boundary enters as an `OpCmdResult`: either the
process failed to start, or it exited non-zero (with captured stderr),
or it produced stdout bytes — abstracted, as with cache files, to the
result of `json.Unmarshal` into `[]struct{Label, Value string}`
(`none` when unmarshalling fails). -/

structure OpField where
  label : String
  value : String
deriving DecidableEq

inductive OpCmdResult where
  /-- cmd.Output returned an exec.ExitError: non-zero exit, with error text and captured stderr. -/
  | exitError (errText : String) (stderr : String) : OpCmdResult
  /-- cmd.Output failed some other way (e.g. executable not found). -/
  | execError (msg : String) : OpCmdResult
  /-- cmd.Output succeeded; the payload is the unmarshal result of its stdout. -/
  | output (items : Option (List OpField)) : OpCmdResult

/-- aws.Credentials: only the two fields the source populates and reads. -/
structure Credentials where
  AccessKeyID : String
  SecretAccessKey : String
deriving DecidableEq

structure opCLICredentialSource where
  cliPath : String
  vault : String
  item : String
  accessKeyIDField : String
  secretAccessKeyField : String

/-- Body of the for-range switch at src/main.go:214-221: Go's switch takes the first matching case. -/
def extractStep (s : opCLICredentialSource) (creds : Credentials) (it : OpField) : Credentials :=
  if it.label = s.accessKeyIDField then { creds with AccessKeyID := it.value }
  else if it.label = s.secretAccessKeyField then { creds with SecretAccessKey := it.value }
  else creds

def extractCreds (s : opCLICredentialSource) (items : List OpField) : Credentials :=
  items.foldl (extractStep s) ⟨"", ""⟩

/-- Retrieve of src/main.go:188-226, as a function of the subprocess outcome. -/
def Retrieve (s : opCLICredentialSource) (cmdOut : OpCmdResult) : Except GoError Credentials :=
  match cmdOut with
  | .exitError e st => .error (.opExitError e st)
  | .execError m => .error (.opExecError m)
  | .output none => .error (.jsonError "json: cannot unmarshal op output")
  | .output (some items) =>
      let creds := extractCreds s items
      if creds.AccessKeyID = "" ∨ creds.SecretAccessKey = "" then .error .missingCredentials
      else .ok creds

/-! ## Pipeline (src/main.go:35-104)

Each effectful step's outcome is a component of `RunEnv`; `run` is the
exact control flow of the Go `run`.  Time is an `Int` count of seconds;
`time.Now().Add(5*time.Minute).Before(t)` is `now + 300 < t`.
Dereferencing the nil `Expiration` pointer in the freshness check at
src/main.go:52 is the `panic` outcome. -/

structure CLIConfig where
  profile : String
  durationSeconds : Int
  opVault : String
  opItem : String
  opAccessKeyIDField : String
  opSecretAccessKeyField : String
  opCLIPath : String

structure SharedConfig where
  Region : String
  MFASerial : String

/-- sts.GetSessionToken output credentials: pointer-typed fields are Options. -/
structure STSCredentials where
  AccessKeyId : Option String
  SecretAccessKey : Option String
  SessionToken : Option String
  Expiration : Option Int
deriving DecidableEq

/-- aws.ToString: dereference, with "" for nil. -/
def awsToString (s : Option String) : String := s.getD ""

structure RunEnv where
  now : Int
  cache : CacheEnv
  write : WriteEnv
  loadConfig : Except GoError SharedConfig
  opOutput : OpCmdResult
  otp : Except GoError String
  sts : Except GoError STSCredentials

inductive RunResult where
  /-- nil-pointer dereference: the process crashes. -/
  | panic : RunResult
  /-- normal return: the JSON documents written to stdout, and run's returned error if any. -/
  | done (stdout : List Json) (ret : Except GoError Unit) : RunResult

/-- The credential source construction at src/main.go:61-67. -/
def credSourceOf (cli : CLIConfig) : opCLICredentialSource :=
  ⟨cli.opCLIPath, cli.opVault, cli.opItem, cli.opAccessKeyIDField, cli.opSecretAccessKeyField⟩

/-- The response struct built at src/main.go:92-98 from the STS output. -/
def mkResponse (out : STSCredentials) : CredentialProcessResponse :=
  ⟨1, awsToString out.AccessKeyId, awsToString out.SecretAccessKey,
    awsToString out.SessionToken, out.Expiration⟩

/-- The cache-miss / stale path of run, src/main.go:56-103. -/
def refreshPipeline (cli : CLIConfig) (env : RunEnv) : RunResult :=
  match env.loadConfig with
  | .error e => .done [] (.error e)
  | .ok _cfg =>
      match Retrieve (credSourceOf cli) env.opOutput with
      | .error e => .done [] (.error e)
      | .ok _creds =>
          match env.otp with
          | .error e => .done [] (.error e)
          | .ok _otp =>
              match env.sts with
              | .error e => .done [] (.error e)
              | .ok out =>
                  match writeCache env.cache env.write cli.profile (mkResponse out) with
                  | .error e => .done [] (.error e)
                  | .ok _ => .done [marshalResponse (mkResponse out)] (.ok ())

/-- run of src/main.go:48-104. -/
def run (cli : CLIConfig) (env : RunEnv) : RunResult :=
  match readCache env.cache cli.profile with
  | .ok cached =>
      match cached.Expiration with
      | none => .panic
      | some exp =>
          if env.now + 300 < exp then .done [marshalResponse cached] (.ok ())
          else refreshPipeline cli env
  | .error _ => refreshPipeline cli env

structure ProcessResult where
  stdout : List Json
  stderrLines : List String
  exitCode : Nat

/-- main of src/main.go:35-46: a run error goes to stderr and exits 1. -/
def mainProcess (cli : CLIConfig) (env : RunEnv) : Option ProcessResult :=
  match run cli env with
  | .panic => none
  | .done out (.error e) => some ⟨out, [e.message], 1⟩
  | .done out (.ok _) => some ⟨out, [], 0⟩

/-! ## Concrete fixtures

Closed environments used to instantiate the theorems below on concrete
inputs. -/

def cliFix : CLIConfig :=
  ⟨"default", 43200, "Private", "aws", "Access key ID", "Secret access key", "op"⟩

def cacheEnvMiss : CacheEnv := ⟨"/tmp/xdg", .ok "/home/user", fun _ => none⟩

def opItemsFix : List OpField :=
  [⟨"Access key ID", "AKIAEXAMPLE"⟩, ⟨"notes", "unrelated"⟩,
   ⟨"Secret access key", "SECRETEXAMPLE"⟩]

def stsOutFix : STSCredentials :=
  ⟨some "ASIAEXAMPLE", some "SESSIONSECRET", some "SESSIONTOKEN", some 100000⟩

def respFix : CredentialProcessResponse := mkResponse stsOutFix

def envFixOk : RunEnv :=
  ⟨1000, cacheEnvMiss, ⟨.ok (), .ok ()⟩,
    .ok ⟨"ap-northeast-1", "arn:aws:iam::123456789012:mfa/user"⟩,
    .output (some opItemsFix), .ok "123456", .ok stsOutFix⟩

def envFixWriteFail : RunEnv :=
  { envFixOk with write := ⟨.ok (), .error (.writeFileError "disk full")⟩ }

def envFixCfgFail : RunEnv :=
  { envFixOk with loadConfig := .error (.configError "unknown profile") }

def cachedRespFix : CredentialProcessResponse := ⟨1, "AK", "SK", "TK", some 100000⟩

def envFixFresh : RunEnv :=
  { envFixOk with cache := { cacheEnvMiss with file := fun _ => some (some (marshalResponse cachedRespFix)) } }

def envFixNilExp : RunEnv :=
  { envFixOk with cache := { cacheEnvMiss with file := fun _ => some (some (Json.obj [])) } }

def sEqFields : opCLICredentialSource := ⟨"op", "Private", "aws", "shared", "shared"⟩

def staleRespFix : CredentialProcessResponse := ⟨1, "AK", "SK", "TK", some 1200⟩

def envFixStaleWriteFail : RunEnv :=
  { envFixWriteFail with
    cache := { cacheEnvMiss with file := fun _ => some (some (marshalResponse staleRespFix)) } }

/-! ## Supporting lemmas -/

theorem string_append_cancel_left (a b c : String) (h : a ++ b = a ++ c) : b = c := by
  have hd := congrArg String.data h
  rw [String.data_append, String.data_append] at hd
  have hbc := List.append_cancel_left hd
  cases b
  cases c
  exact congrArg String.mk hbc

theorem joinPath_right_inj {a b c : String} (h : joinPath a b = joinPath a c) : b = c :=
  string_append_cancel_left (a ++ "/") b c h

theorem hexChar_inj_fin : ∀ a b : Fin 16, hexChar a.val = hexChar b.val → a = b := by decide

theorem hexChar_ne_slash : ∀ a : Fin 16, hexChar a.val ≠ '/' := by decide

theorem hexChar_inj {a b : Nat} (ha : a < 16) (hb : b < 16) (h : hexChar a = hexChar b) : a = b := by
  have := hexChar_inj_fin ⟨a, ha⟩ ⟨b, hb⟩ h
  simpa [Fin.mk.injEq] using this

theorem hexByte_inj {a b : Nat} (ha : a < 256) (hb : b < 256) (h : hexByte a = hexByte b) : a = b := by
  simp only [hexByte, List.cons.injEq, and_true] at h
  have d1 : a / 16 = b / 16 := hexChar_inj (by omega) (by omega) h.1
  have d2 : a % 16 = b % 16 := hexChar_inj (by omega) (by omega) h.2
  omega

theorem flatMap_hexByte_inj : ∀ l1 l2 : List Nat, l1.length = l2.length →
    (∀ b ∈ l1, b < 256) → (∀ b ∈ l2, b < 256) →
    l1.flatMap hexByte = l2.flatMap hexByte → l1 = l2 := by
  intro l1
  induction l1 with
  | nil =>
      intro l2 hlen _ _ _
      cases l2 with
      | nil => rfl
      | cons b t => simp at hlen
  | cons a t ih =>
      intro l2 hlen h1 h2 h
      cases l2 with
      | nil => simp at hlen
      | cons b t2 =>
          simp only [List.flatMap_cons, hexByte, List.cons_append, List.nil_append,
            List.cons.injEq] at h
          obtain ⟨hc1, hc2, hrest⟩ := h
          have hab : a = b := by
            have ha := h1 a (by simp)
            have hb := h2 b (by simp)
            have d1 : a / 16 = b / 16 := hexChar_inj (by omega) (by omega) hc1
            have d2 : a % 16 = b % 16 := hexChar_inj (by omega) (by omega) hc2
            omega
          subst hab
          have ht : t = t2 := by
            refine ih t2 (by simpa using hlen) (fun x hx => h1 x (by simp [hx]))
              (fun x hx => h2 x (by simp [hx])) ?_
            simpa [List.flatMap_cons, hexByte] using hrest
          rw [ht]

theorem hexDigest_inj {l1 l2 : List Nat} (hlen : l1.length = l2.length)
    (h1 : ∀ b ∈ l1, b < 256) (h2 : ∀ b ∈ l2, b < 256)
    (h : hexDigest l1 = hexDigest l2) : l1 = l2 :=
  flatMap_hexByte_inj l1 l2 hlen h1 h2 (congrArg String.data h)

theorem beBytes_length (k n : Nat) : (beBytes k n).length = k := by
  simp [beBytes]

theorem beBytes_lt {k n b : Nat} (h : b ∈ beBytes k n) : b < 256 := by
  simp only [beBytes, List.mem_map, List.mem_range] at h
  obtain ⟨i, _, hb⟩ := h
  omega

theorem sha1Compress_length (hs ws : List Nat) : (sha1Compress hs ws).length = 5 := rfl

theorem foldl_compress_length (blocks : List (List Nat)) :
    ∀ hs : List Nat, hs.length = 5 →
      (blocks.foldl (fun hs blk => sha1Compress hs (toWords blk)) hs).length = 5 := by
  induction blocks with
  | nil => intro hs h; exact h
  | cons b t ih =>
      intro hs _
      rw [List.foldl_cons]
      exact ih _ (sha1Compress_length _ _)

theorem flatMap_beBytes_length (hs : List Nat) :
    (hs.flatMap (beBytes 4)).length = 4 * hs.length := by
  induction hs with
  | nil => rfl
  | cons a t ih => simp [List.flatMap_cons, beBytes_length, ih]; omega

theorem sha1_length (msg : List Nat) : (sha1 msg).length = 20 := by
  have h5 := foldl_compress_length (splitBlocks (sha1Pad msg).length (sha1Pad msg))
    [0x67452301, 0xEFCDAB89, 0x98BADCFE, 0x10325476, 0xC3D2E1F0] rfl
  unfold sha1
  rw [flatMap_beBytes_length, h5]

theorem sha1_bytes_lt (msg : List Nat) : ∀ b ∈ sha1 msg, b < 256 := by
  intro b hb
  unfold sha1 at hb
  rw [List.mem_flatMap] at hb
  obtain ⟨a, _, hba⟩ := hb
  exact beBytes_lt hba

theorem hexDigest_data_length (l : List Nat) : (hexDigest l).data.length = 2 * l.length := by
  show (l.flatMap hexByte).length = 2 * l.length
  induction l with
  | nil => rfl
  | cons a t ih => simp [List.flatMap_cons, hexByte, ih]; omega

theorem hexDigest_sha1_ne_slash (msg : List Nat) : ∀ c ∈ (hexDigest (sha1 msg)).data, c ≠ '/' := by
  intro c hc
  have hc' : c ∈ (sha1 msg).flatMap hexByte := hc
  rw [List.mem_flatMap] at hc'
  obtain ⟨b, hb, hcb⟩ := hc'
  have hblt : b < 256 := sha1_bytes_lt msg b hb
  simp only [hexByte, List.mem_cons, List.not_mem_nil, or_false] at hcb
  rcases hcb with rfl | rfl
  · exact hexChar_ne_slash ⟨b / 16, by omega⟩
  · exact hexChar_ne_slash ⟨b % 16, by omega⟩

theorem extract_access_unchanged (s : opCLICredentialSource) :
    ∀ (items : List OpField) (c : Credentials),
      (∀ it ∈ items, it.label ≠ s.accessKeyIDField) →
      (items.foldl (extractStep s) c).AccessKeyID = c.AccessKeyID := by
  intro items
  induction items with
  | nil => intro c _; rfl
  | cons it t ih =>
      intro c h
      rw [List.foldl_cons]
      have hne := h it (by simp)
      have hstep : (extractStep s c it).AccessKeyID = c.AccessKeyID := by
        unfold extractStep
        rw [if_neg hne]
        split <;> rfl
      rw [ih _ (fun x hx => h x (by simp [hx])), hstep]

theorem extract_secret_unchanged (s : opCLICredentialSource) :
    ∀ (items : List OpField) (c : Credentials),
      (∀ it ∈ items, it.label ≠ s.secretAccessKeyField) →
      (items.foldl (extractStep s) c).SecretAccessKey = c.SecretAccessKey := by
  intro items
  induction items with
  | nil => intro c _; rfl
  | cons it t ih =>
      intro c h
      rw [List.foldl_cons]
      have hne := h it (by simp)
      have hstep : (extractStep s c it).SecretAccessKey = c.SecretAccessKey := by
        by_cases h1 : it.label = s.accessKeyIDField
        · simp [extractStep, h1]
        · simp [extractStep, h1, hne]
      rw [ih _ (fun x hx => h x (by simp [hx])), hstep]

theorem extract_secret_eq_labels (s : opCLICredentialSource)
    (heq : s.accessKeyIDField = s.secretAccessKeyField) :
    ∀ (items : List OpField) (c : Credentials),
      (items.foldl (extractStep s) c).SecretAccessKey = c.SecretAccessKey := by
  intro items
  induction items with
  | nil => intro c; rfl
  | cons it t ih =>
      intro c
      rw [List.foldl_cons]
      have hstep : (extractStep s c it).SecretAccessKey = c.SecretAccessKey := by
        unfold extractStep
        split
        · rfl
        · rw [if_neg (by rw [← heq]; assumption)]
      rw [ih, hstep]

theorem extract_access_value (s : opCLICredentialSource) (va : String) :
    ∀ (items : List OpField) (c : Credentials),
      (∀ it ∈ items, it.label = s.accessKeyIDField → it.value = va) →
      (∃ it ∈ items, it.label = s.accessKeyIDField) →
      (items.foldl (extractStep s) c).AccessKeyID = va := by
  intro items
  induction items with
  | nil => intro c _ hex; simp at hex
  | cons it t ih =>
      intro c hA hex
      rw [List.foldl_cons]
      by_cases hit : it.label = s.accessKeyIDField
      · by_cases htex : ∃ x ∈ t, x.label = s.accessKeyIDField
        · exact ih _ (fun x hx => hA x (by simp [hx])) htex
        · push_neg at htex
          rw [extract_access_unchanged s t _ htex]
          unfold extractStep
          rw [if_pos hit]
          exact hA it (by simp) hit
      · have htex : ∃ x ∈ t, x.label = s.accessKeyIDField := by
          obtain ⟨x, hx, hxl⟩ := hex
          rcases List.mem_cons.mp hx with rfl | hxt
          · exact absurd hxl hit
          · exact ⟨x, hxt, hxl⟩
        exact ih _ (fun x hx => hA x (by simp [hx])) htex

theorem extract_secret_value (s : opCLICredentialSource) (vs : String)
    (hne : s.accessKeyIDField ≠ s.secretAccessKeyField) :
    ∀ (items : List OpField) (c : Credentials),
      (∀ it ∈ items, it.label = s.secretAccessKeyField → it.value = vs) →
      (∃ it ∈ items, it.label = s.secretAccessKeyField) →
      (items.foldl (extractStep s) c).SecretAccessKey = vs := by
  intro items
  induction items with
  | nil => intro c _ hex; simp at hex
  | cons it t ih =>
      intro c hS hex
      rw [List.foldl_cons]
      by_cases hit : it.label = s.secretAccessKeyField
      · by_cases htex : ∃ x ∈ t, x.label = s.secretAccessKeyField
        · exact ih _ (fun x hx => hS x (by simp [hx])) htex
        · push_neg at htex
          rw [extract_secret_unchanged s t _ htex]
          unfold extractStep
          rw [if_neg (by rw [hit]; exact fun hh => hne hh.symm), if_pos hit]
          exact hS it (by simp) hit
      · have htex : ∃ x ∈ t, x.label = s.secretAccessKeyField := by
          obtain ⟨x, hx, hxl⟩ := hex
          rcases List.mem_cons.mp hx with rfl | hxt
          · exact absurd hxl hit
          · exact ⟨x, hxt, hxl⟩
        exact ih _ (fun x hx => hS x (by simp [hx])) htex

theorem unmarshal_marshal (r : CredentialProcessResponse) :
    unmarshalResponse (marshalResponse r) = .ok r := by
  rcases r with ⟨v, ak, sk, st, ex⟩
  cases ex <;> rfl

theorem refresh_error_stdout_empty (cli : CLIConfig) (env : RunEnv) (out : List Json) (e : GoError)
    (h : refreshPipeline cli env = .done out (.error e)) : out = [] := by
  unfold refreshPipeline at h
  split at h
  · simp_all
  · split at h
    · simp_all
    · split at h
      · simp_all
      · split at h
        · simp_all
        · split at h
          · simp_all
          · simp_all

theorem run_error_stdout_empty (cli : CLIConfig) (env : RunEnv) (out : List Json) (e : GoError)
    (h : run cli env = .done out (.error e)) : out = [] := by
  unfold run at h
  split at h
  · split at h
    · simp at h
    · split at h
      · simp_all
      · exact refresh_error_stdout_empty cli env out e h
  · exact refresh_error_stdout_empty cli env out e h

theorem cachePath_file_irrel (env : CacheEnv) (f : String → Option (Option Json))
    (profile : String) : cachePath { env with file := f } profile = cachePath env profile := rfl

theorem appendJson_inj {s t : String} (h : s ++ ".json" = t ++ ".json") : s = t := by
  have hd := congrArg String.data h
  rw [String.data_append, String.data_append] at hd
  have hst := List.append_cancel_right hd
  cases s
  cases t
  exact congrArg String.mk hst

theorem readCache_after_write (env : CacheEnv) (f : String → Option (Option Json)) (P : String)
    (profile : String) (resp : CredentialProcessResponse)
    (hpath : cachePath env profile = .ok P)
    (hf : f P = some (some (marshalResponse resp))) :
    readCache { env with file := f } profile = .ok resp := by
  unfold readCache
  rw [cachePath_file_irrel, hpath]
  show (match f P with
    | none => Except.error GoError.notExist
    | some none => Except.error (.jsonError "invalid character in cache file")
    | some (some j) => unmarshalResponse j) = .ok resp
  rw [hf]
  exact unmarshal_marshal resp

/-! ## Claim theorems -/

/-- C6: for well-formed op output in which at least one of the two configured field labels is
absent, Retrieve fails with the missing-credentials error; that error's message differs from
every subprocess-exit error message (which carries the captured stderr), and the error value is
distinct from both the subprocess-exit error and the unmarshal (parse) error. -/
theorem retrieve_missing_field (s : opCLICredentialSource) (items : List OpField)
    (habsent : (∀ it ∈ items, it.label ≠ s.accessKeyIDField) ∨
               (∀ it ∈ items, it.label ≠ s.secretAccessKeyField)) :
    Retrieve s (.output (some items)) = .error .missingCredentials ∧
    (∀ a b, GoError.message .missingCredentials ≠ GoError.message (.opExitError a b)) ∧
    (∀ a b, GoError.missingCredentials ≠ GoError.opExitError a b) ∧
    (∀ m, GoError.missingCredentials ≠ GoError.jsonError m) := by
  refine ⟨?_, ?_, ?_, ?_⟩
  · simp only [Retrieve, extractCreds]
    rcases habsent with h | h
    · rw [if_pos (Or.inl (extract_access_unchanged s items ⟨"", ""⟩ h))]
    · rw [if_pos (Or.inr (extract_secret_unchanged s items ⟨"", ""⟩ h))]
  · intro a b h
    have hd := congrArg String.data h
    simp only [GoError.message, String.data_append] at hd
    simp only [List.cons_append, List.append_assoc, List.cons.injEq] at hd
    exact absurd hd.1 (by decide)
  · intro a b h
    exact GoError.noConfusion h
  · intro m h
    exact GoError.noConfusion h

theorem retrieve_missing_field_witness :
    Retrieve (credSourceOf cliFix) (.output (some [⟨"notes", "unrelated"⟩])) =
      .error .missingCredentials :=
  (retrieve_missing_field (credSourceOf cliFix) [⟨"notes", "unrelated"⟩]
    (Or.inl (by decide))).1

/-- C7: for well-formed op output containing a record for each configured field label with
non-empty values, in any order and interleaved with records bearing unrelated labels, Retrieve
succeeds with exactly those two values and ignores all other records. -/
theorem retrieve_field_extraction (s : opCLICredentialSource) (items : List OpField)
    (va vs : String)
    (hne : s.accessKeyIDField ≠ s.secretAccessKeyField)
    (hva : va ≠ "") (hvs : vs ≠ "")
    (hA : ∀ it ∈ items, it.label = s.accessKeyIDField → it.value = va)
    (hS : ∀ it ∈ items, it.label = s.secretAccessKeyField → it.value = vs)
    (hexA : ∃ it ∈ items, it.label = s.accessKeyIDField)
    (hexS : ∃ it ∈ items, it.label = s.secretAccessKeyField) :
    Retrieve s (.output (some items)) = .ok ⟨va, vs⟩ := by
  have h1 : (extractCreds s items).AccessKeyID = va :=
    extract_access_value s va items ⟨"", ""⟩ hA hexA
  have h2 : (extractCreds s items).SecretAccessKey = vs :=
    extract_secret_value s vs hne items ⟨"", ""⟩ hS hexS
  have hcred : extractCreds s items = ⟨va, vs⟩ := by
    have hEta : extractCreds s items =
        ⟨(extractCreds s items).AccessKeyID, (extractCreds s items).SecretAccessKey⟩ := rfl
    rw [hEta, h1, h2]
  simp only [Retrieve, hcred]
  rw [if_neg (by simp [hva, hvs])]

theorem retrieve_field_extraction_witness :
    Retrieve (credSourceOf cliFix) (.output (some opItemsFix)) =
      .ok ⟨"AKIAEXAMPLE", "SECRETEXAMPLE"⟩ :=
  retrieve_field_extraction (credSourceOf cliFix) opItemsFix "AKIAEXAMPLE" "SECRETEXAMPLE"
    (by decide) (by decide) (by decide) (by decide) (by decide) (by decide) (by decide)

/-- C10: when the two configured field labels coincide, the first switch case captures every
matching record, the secret-access-key field is never populated, and Retrieve always fails with
the missing-credentials error — even when the output contains a record with that label and a
non-empty value. -/
theorem retrieve_equal_labels_always_missing (s : opCLICredentialSource)
    (heq : s.accessKeyIDField = s.secretAccessKeyField) (items : List OpField) :
    Retrieve s (.output (some items)) = .error .missingCredentials := by
  simp only [Retrieve, extractCreds]
  rw [if_pos (Or.inr (extract_secret_eq_labels s heq items ⟨"", ""⟩))]

theorem retrieve_equal_labels_witness :
    Retrieve sEqFields (.output (some [⟨"shared", "TOPSECRET"⟩])) =
      .error .missingCredentials :=
  retrieve_equal_labels_always_missing sEqFields rfl [⟨"shared", "TOPSECRET"⟩]

/-- C8: cachePath is deterministic; under a resolved cache base directory the produced path is
the hex SHA-1 digest of the profile name plus ".json" placed directly inside the helper's cache
directory (the final component is nonempty, not a dot entry, and contains no path separator, so
any profile name stays within the cache directory); and two profiles whose digests differ are
mapped to distinct paths. -/
theorem cachePath_deterministic_and_contained (env : CacheEnv) (p q base : String)
    (hbase : cacheBase env = .ok base) :
    cachePath env p = cachePath env p ∧
    (∃ name, cachePath env p =
        .ok (joinPath (joinPath base "op-aws-credential-helper") name) ∧
      name ≠ "" ∧ name ≠ "." ∧ name ≠ ".." ∧ ∀ c ∈ name.data, c ≠ '/') ∧
    (sha1 (strBytes p) ≠ sha1 (strBytes q) → cachePath env p ≠ cachePath env q) := by
  have hp : ∀ r : String, cachePath env r =
      .ok (joinPath (joinPath base "op-aws-credential-helper")
        (hexDigest (sha1 (strBytes r)) ++ ".json")) := by
    intro r
    unfold cachePath
    rw [hbase]
  refine ⟨rfl, ⟨hexDigest (sha1 (strBytes p)) ++ ".json", hp p, ?_, ?_, ?_, ?_⟩, ?_⟩
  · intro h
    have hlen := congrArg List.length (congrArg String.data h)
    rw [String.data_append, List.length_append, hexDigest_data_length, sha1_length] at hlen
    simp at hlen
  · intro h
    have hlen := congrArg List.length (congrArg String.data h)
    rw [String.data_append, List.length_append, hexDigest_data_length, sha1_length] at hlen
    simp at hlen
  · intro h
    have hlen := congrArg List.length (congrArg String.data h)
    rw [String.data_append, List.length_append, hexDigest_data_length, sha1_length] at hlen
    simp at hlen
  · intro c hc
    rw [String.data_append] at hc
    rcases List.mem_append.mp hc with hhex | hjson
    · exact hexDigest_sha1_ne_slash (strBytes p) c hhex
    · have hj : ∀ x ∈ (".json" : String).data, x ≠ '/' := by decide
      exact hj c hjson
  · intro hne heq
    rw [hp p, hp q] at heq
    have hjoin := Except.ok.inj heq
    have hname := joinPath_right_inj hjoin
    have hhex := appendJson_inj hname
    have hdig : sha1 (strBytes p) = sha1 (strBytes q) :=
      hexDigest_inj (by rw [sha1_length, sha1_length])
        (sha1_bytes_lt (strBytes p)) (sha1_bytes_lt (strBytes q)) hhex
    exact hne hdig

set_option maxRecDepth 100000 in
theorem cachePath_deterministic_witness :
    cachePath cacheEnvMiss "a" ≠ cachePath cacheEnvMiss "b" :=
  (cachePath_deterministic_and_contained cacheEnvMiss "a" "b" "/tmp/xdg" rfl).2.2
    (by decide)

/-- C9: a SessionCredential written to the cache with writeCache and immediately reloaded with
readCache on the same profile is recovered exactly, equal in every field (version, access key
ID, secret access key, session token, expiration). -/
theorem cache_round_trip (env : CacheEnv) (wenv : WriteEnv) (profile : String)
    (resp : CredentialProcessResponse) (base : String)
    (hbase : cacheBase env = .ok base)
    (hm : wenv.mkdirAll = .ok ()) (hw : wenv.writeFile = .ok ()) :
    (writeCache env wenv profile resp).map
      (fun f => readCache { env with file := f } profile) = .ok (.ok resp) := by
  have hpath : cachePath env profile =
      .ok (joinPath (joinPath base "op-aws-credential-helper")
        (hexDigest (sha1 (strBytes profile)) ++ ".json")) := by
    unfold cachePath
    rw [hbase]
  unfold writeCache
  rw [hpath, hm, hw]
  exact congrArg Except.ok (readCache_after_write env _ _ profile resp hpath (if_pos rfl))

theorem cache_round_trip_witness :
    (writeCache cacheEnvMiss ⟨.ok (), .ok ()⟩ "default" respFix).map
      (fun f => readCache { cacheEnvMiss with file := f } "default") = .ok (.ok respFix) :=
  cache_round_trip cacheEnvMiss ⟨.ok (), .ok ()⟩ "default" respFix "/tmp/xdg" rfl rfl rfl

/-- C1 counterexample: a pipeline execution in which the exchange succeeds and the subsequent
cache write fails: run emits nothing on standard output and returns the cache-write error, and
main reports it as a fatal error with exit status 1 — refuting, at this concrete input, the
claim that the credential is still emitted and the failure surfaced only as a warning. -/
theorem run_write_failure_counterexample :
    run cliFix envFixWriteFail = .done [] (.error (.writeFileError "disk full")) ∧
    mainProcess cliFix envFixWriteFail =
      some ⟨[], [GoError.message (.writeFileError "disk full")], 1⟩ := ⟨rfl, rfl⟩

/-- C1 amended: if the session exchange succeeds but the subsequent cache write fails, run
aborts: it returns the cache-write error without writing anything to standard output, and the
error is reported as fatal (diagnostic on stderr, exit status 1), not as a warning.  This holds
for every entry into the refresh pipeline: a cache-read failure as well as a readable cached
record whose expiration is within or past the 5-minute margin. -/
theorem run_write_failure_aborts (cli : CLIConfig) (env : RunEnv) (e : GoError)
    (cfg : SharedConfig) (creds : Credentials) (code : String) (out : STSCredentials)
    (hc : (∃ ce, readCache env.cache cli.profile = .error ce) ∨
          (∃ cached exp, readCache env.cache cli.profile = .ok cached ∧
            cached.Expiration = some exp ∧ ¬ env.now + 300 < exp))
    (hcfg : env.loadConfig = .ok cfg)
    (hr : Retrieve (credSourceOf cli) env.opOutput = .ok creds)
    (ho : env.otp = .ok code)
    (hs : env.sts = .ok out)
    (hw : writeCache env.cache env.write cli.profile (mkResponse out) = .error e) :
    run cli env = .done [] (.error e) ∧
    mainProcess cli env = some ⟨[], [e.message], 1⟩ := by
  have hrefresh : refreshPipeline cli env = .done [] (.error e) := by
    simp only [refreshPipeline, hcfg, hr, ho, hs, hw]
  have hrun : run cli env = .done [] (.error e) := by
    rcases hc with ⟨ce, hce⟩ | ⟨cached, exp, hok, hexp, hstale⟩
    · simp only [run, hce, hrefresh]
    · simp only [run, hok, hexp, if_neg hstale, hrefresh]
  refine ⟨hrun, ?_⟩
  unfold mainProcess
  rw [hrun]

theorem run_write_failure_aborts_witness :
    run cliFix envFixStaleWriteFail = .done [] (.error (.writeFileError "disk full")) ∧
    mainProcess cliFix envFixStaleWriteFail =
      some ⟨[], [GoError.message (.writeFileError "disk full")], 1⟩ :=
  run_write_failure_aborts cliFix envFixStaleWriteFail (.writeFileError "disk full")
    ⟨"ap-northeast-1", "arn:aws:iam::123456789012:mfa/user"⟩
    ⟨"AKIAEXAMPLE", "SECRETEXAMPLE"⟩ "123456" stsOutFix
    (Or.inr ⟨staleRespFix, 1200, rfl, rfl, by decide⟩) rfl rfl rfl rfl rfl

/-- C2: freshness policy: when the cached record loads with an expiration strictly more than
5 minutes after the current time, run emits the cached record and succeeds, with a result that
is independent of every downstream step outcome (secret retrieval, MFA prompt, exchange, cache
write); when the expiration is within or past the margin, or no record loads, run performs the
full refresh pipeline. -/
theorem run_cache_freshness (cli : CLIConfig) (env : RunEnv)
    (cached : CredentialProcessResponse) (exp : Int) :
    (readCache env.cache cli.profile = .ok cached → cached.Expiration = some exp →
      ((env.now + 300 < exp →
          run cli env = .done [marshalResponse cached] (.ok ()) ∧
          ∀ env' : RunEnv, env'.cache = env.cache → env'.now = env.now →
            run cli env' = .done [marshalResponse cached] (.ok ())) ∧
        (¬ env.now + 300 < exp → run cli env = refreshPipeline cli env))) ∧
    ((∃ e, readCache env.cache cli.profile = .error e) →
      run cli env = refreshPipeline cli env) := by
  constructor
  · intro hc hexp
    constructor
    · intro hlt
      constructor
      · simp only [run, hc, hexp, if_pos hlt]
      · intro env' hcache hnow
        simp only [run, hcache, hc, hexp, hnow, if_pos hlt]
    · intro hge
      simp only [run, hc, hexp, if_neg hge]
  · intro hex
    obtain ⟨e, hc⟩ := hex
    simp only [run, hc]

theorem run_cache_freshness_witness :
    run cliFix envFixFresh = .done [marshalResponse cachedRespFix] (.ok ()) :=
  ((((run_cache_freshness cliFix envFixFresh cachedRespFix 100000).1 rfl rfl).1)
    (by decide)).1

/-- C3: no output on failure: whenever run returns an error, nothing was written to standard
output and main writes the diagnostic message to the error stream and exits with status 1; in
particular each fatal category — configuration resolution, secret retrieval, MFA prompt, and
exchange failure — produces such an error return. -/
theorem run_fatal_no_output (cli : CLIConfig) (env : RunEnv) :
    (∀ out e, run cli env = .done out (.error e) →
        out = [] ∧ mainProcess cli env = some ⟨[], [e.message], 1⟩) ∧
    (∀ ce, readCache env.cache cli.profile = .error ce →
      (∀ e, env.loadConfig = .error e → run cli env = .done [] (.error e)) ∧
      (∀ cfg e, env.loadConfig = .ok cfg →
          Retrieve (credSourceOf cli) env.opOutput = .error e →
          run cli env = .done [] (.error e)) ∧
      (∀ cfg creds e, env.loadConfig = .ok cfg →
          Retrieve (credSourceOf cli) env.opOutput = .ok creds →
          env.otp = .error e → run cli env = .done [] (.error e)) ∧
      (∀ cfg creds code e, env.loadConfig = .ok cfg →
          Retrieve (credSourceOf cli) env.opOutput = .ok creds →
          env.otp = .ok code → env.sts = .error e →
          run cli env = .done [] (.error e))) := by
  constructor
  · intro out e h
    have hout := run_error_stdout_empty cli env out e h
    subst hout
    refine ⟨rfl, ?_⟩
    unfold mainProcess
    rw [h]
  · intro ce hc
    refine ⟨?_, ?_, ?_, ?_⟩
    · intro e hcfg
      simp only [run, hc, refreshPipeline, hcfg]
    · intro cfg e hcfg hr
      simp only [run, hc, refreshPipeline, hcfg, hr]
    · intro cfg creds e hcfg hr ho
      simp only [run, hc, refreshPipeline, hcfg, hr, ho]
    · intro cfg creds code e hcfg hr ho hs
      simp only [run, hc, refreshPipeline, hcfg, hr, ho, hs]

theorem run_fatal_no_output_witness :
    run cliFix envFixCfgFail = .done [] (.error (.configError "unknown profile")) ∧
    mainProcess cliFix envFixCfgFail =
      some ⟨[], [GoError.message (.configError "unknown profile")], 1⟩ := by
  have h := run_fatal_no_output cliFix envFixCfgFail
  have h1 := (h.2 .notExist rfl).1 (.configError "unknown profile") rfl
  exact ⟨h1, (h.1 [] _ h1).2⟩

/-- C4: there is valid-JSON cache content — an object lacking the expiration field — that
readCache decodes without error into a record whose Expiration pointer is nil, and on which
run then dereferences the nil pointer in the freshness check and crashes, instead of treating
the record as a cache miss: the freshness check is not total over readCache's possible
successful results. -/
theorem run_nil_expiration_crash (cli : CLIConfig) (env : RunEnv)
    (hfile : ∀ pth, env.cache.file pth = some (some (Json.obj [])))
    (hbase : ∃ b, cacheBase env.cache = .ok b) :
    unmarshalResponse (Json.obj []) = .ok ⟨0, "", "", "", none⟩ ∧
    run cli env = .panic := by
  refine ⟨rfl, ?_⟩
  obtain ⟨b, hb⟩ := hbase
  have hrc : readCache env.cache cli.profile = .ok ⟨0, "", "", "", none⟩ := by
    simp only [readCache, cachePath, hb, hfile]
    rfl
  simp only [run, hrc]

theorem run_nil_expiration_crash_witness : run cliFix envFixNilExp = .panic :=
  (run_nil_expiration_crash cliFix envFixNilExp (fun _ => rfl) ⟨"/tmp/xdg", rfl⟩).2

/-- C5: every cache-read failure — missing or unreadable file, content that is not valid JSON,
or content whose decoding fails — makes readCache return an error, and any readCache error
makes run proceed silently with the full refresh pipeline rather than aborting. -/
theorem cache_read_failure_nonfatal (cli : CLIConfig) (env : RunEnv) (P : String)
    (hpath : cachePath env.cache cli.profile = .ok P) :
    (env.cache.file P = none → readCache env.cache cli.profile = .error .notExist) ∧
    (env.cache.file P = some none →
      readCache env.cache cli.profile = .error (.jsonError "invalid character in cache file")) ∧
    (∀ j pe, env.cache.file P = some (some j) → unmarshalResponse j = .error pe →
      readCache env.cache cli.profile = .error pe) ∧
    (∀ e, readCache env.cache cli.profile = .error e →
      run cli env = refreshPipeline cli env) := by
  refine ⟨?_, ?_, ?_, ?_⟩
  · intro hf
    simp only [readCache, hpath, hf]
  · intro hf
    simp only [readCache, hpath, hf]
  · intro j pe hf hj
    simp only [readCache, hpath, hf, hj]
  · intro e hrc
    simp only [run, hrc]

theorem cache_read_failure_nonfatal_witness :
    readCache cacheEnvMiss "default" = .error .notExist ∧
    run cliFix envFixOk = refreshPipeline cliFix envFixOk := by
  have h := cache_read_failure_nonfatal cliFix envFixOk
    (joinPath (joinPath "/tmp/xdg" "op-aws-credential-helper")
      (hexDigest (sha1 (strBytes "default")) ++ ".json")) rfl
  exact ⟨h.1 rfl, h.2.2.2 .notExist (h.1 rfl)⟩

end OpAws
